import Mathlib

/-!
Verification development for the email-derived expense extraction and
AI-categorization pipeline of the expense-tracker repository.

The TypeScript sources are shallowly embedded: JavaScript strings are
`List Char`, JavaScript numbers are an exact variant type `JsNum`
(NaN / signed infinity / exact rational) — floating-point rounding is not
modelled, which is irrelevant to every property proved here since no proof
depends on inexact arithmetic — and the regular-expression passes of the
source are implemented as deterministic scanners that realise exactly the
(backtracking-free) behaviour of the concrete patterns used by the code.
External effects (the Gmail fetch, the Gemini call, the storage API, the
JavaScript `Date` parser and clock) are parameters of the embedded
functions, so runs are deterministic functions of their inputs.
-/

set_option maxRecDepth 20000

/-- Strings of the embedded JavaScript world: a list of characters. -/
abbrev Str := List Char

namespace JsStr

/-- Opening brace character, written via its code point. -/
def lbrace : Char := Char.ofNat 123

/-- Closing brace character, written via its code point. -/
def rbrace : Char := Char.ofNat 125

/-- Whitespace class of JavaScript regular expressions (`\s`), restricted to
the code points that can occur in this pipeline's data: space, tab, line
feed, vertical tab, form feed, carriage return and no-break space. -/
def isWs (c : Char) : Bool :=
  c = ' ' || c = Char.ofNat 9 || c = Char.ofNat 10 || c = Char.ofNat 11 ||
  c = Char.ofNat 12 || c = Char.ofNat 13 || c = Char.ofNat 160

/-- Drop leading whitespace. -/
def dropLeadWs : Str → Str
  | [] => []
  | c :: r => if isWs c then dropLeadWs r else c :: r

/-- Drop trailing whitespace. -/
def dropTrailWs (s : Str) : Str :=
  (dropLeadWs s.reverse).reverse

/-- Model of `String.prototype.trim`. -/
def trim (s : Str) : Str :=
  dropTrailWs (dropLeadWs s)

/-- ASCII lower-casing, the fragment of `toLowerCase` exercised here. -/
def lowerChar (c : Char) : Char :=
  if 'A' ≤ c ∧ c ≤ 'Z' then Char.ofNat (c.toNat + 32) else c

/-- Model of `String.prototype.toLowerCase` on ASCII data. -/
def toLower (s : Str) : Str := s.map lowerChar

/-- Case-sensitive literal prefix stripping: `some rest` on success. -/
def stripLit : Str → Str → Option Str
  | [], s => some s
  | _ :: _, [] => none
  | p :: ps, c :: cs => if c = p then stripLit ps cs else none

/-- Case-insensitive literal prefix stripping (ASCII). -/
def stripLitCI : Str → Str → Option Str
  | [], s => some s
  | _ :: _, [] => none
  | p :: ps, c :: cs => if lowerChar c = lowerChar p then stripLitCI ps cs else none

/-- Does `needle` occur as a contiguous substring of `hay`?  Model of
`String.prototype.includes`. -/
def hasSub (hay needle : Str) : Bool :=
  match hay with
  | [] => (stripLit needle ([] : Str)).isSome
  | _ :: t => (stripLit needle hay).isSome || hasSub t needle

/-- Split on a single space character, keeping empty fragments — the
behaviour of `String.prototype.split(' ')`. -/
def splitSp (s : Str) : List Str :=
  go s [] where
  /-- Accumulates the current fragment in reverse. -/
  go : Str → Str → List Str
    | [], acc => [acc.reverse]
    | c :: r, acc => if c = ' ' then acc.reverse :: go r [] else go r (c :: acc)

/-- Replace the first occurrence of character `a` by character `b`
(`String.prototype.replace` with a string pattern replaces only once). -/
def replaceFirstChar (a b : Char) : Str → Str
  | [] => []
  | c :: r => if c = a then b :: r else c :: replaceFirstChar a b r

/-- Remove the first occurrence of character `a`. -/
def removeFirstChar (a : Char) : Str → Str
  | [] => []
  | c :: r => if c = a then r else c :: removeFirstChar a r

end JsStr

/-- Exact rationals representing finite JavaScript numbers: a numerator and a
positive denominator, not necessarily reduced.  Only construction, sign tests
and structural equality of identically-constructed values are needed, so no
normalisation is required. -/
structure Q where
  num : Int
  den : Nat
  deriving DecidableEq, Repr

namespace Q

/-- The rational is (strictly) positive. -/
def isPos (q : Q) : Bool := 0 < q.num

end Q

/-- JavaScript numbers as far as this pipeline observes them: NaN, the two
infinities, or an exact finite value. -/
inductive JsNum where
  | nan : JsNum
  | inf : Bool → JsNum
  | fin : Q → JsNum
  deriving DecidableEq, Repr

namespace JsNum

/-- Model of `isNaN`. -/
def isNaN : JsNum → Bool
  | .nan => true
  | _ => false

/-- Model of the comparison `x <= 0` (false on NaN). -/
def leZero : JsNum → Bool
  | .nan => false
  | .inf pos => !pos
  | .fin q => q.num ≤ 0

end JsNum

namespace JsNum

/-- Decimal digits consumed from the front: value, count, rest. -/
def digits : Str → Nat → Nat → (Nat × Nat × Str)
  | [], v, k => (v, k, [])
  | c :: r, v, k =>
    if '0' ≤ c ∧ c ≤ '9' then digits r (v * 10 + (c.toNat - '0'.toNat)) (k + 1)
    else (v, k, c :: r)

/-- Power of ten. -/
def pow10 : Nat → Nat
  | 0 => 1
  | n + 1 => 10 * pow10 n

/-- Exponent suffix of a decimal literal (`e`/`E`, optional sign, digits).
Returns the exponent and the unconsumed input; a malformed exponent
contributes nothing, exactly as in `parseFloat` where the longest valid
literal prefix wins. -/
def expPart (s : Str) : Int :=
  match s with
  | c :: r =>
    if c = 'e' ∨ c = 'E' then
      match r with
      | '+' :: r' => (fun (v, k, _) => if k = 0 then 0 else (v : Int)) (digits r' 0 0)
      | '-' :: r' => (fun (v, k, _) => if k = 0 then 0 else -(v : Int)) (digits r' 0 0)
      | _ => (fun (v, k, _) => if k = 0 then 0 else (v : Int)) (digits r 0 0)
    else 0
  | [] => 0

/-- Unsigned decimal part of `parseFloat`: integer digits, optional point,
fraction digits, optional exponent.  `none` when no digit is present. -/
def decPart (s : Str) : Option Q :=
  match digits s 0 0 with
  | (iv, ik, rest) =>
    match rest with
    | '.' :: r =>
      match digits r 0 0 with
      | (fv, fk, rest') =>
        if ik = 0 ∧ fk = 0 then none
        else
          let e := expPart rest'
          let m : Int := (iv * pow10 fk + fv : Nat)
          if 0 ≤ e then some ⟨m * (pow10 e.toNat : Nat), pow10 fk⟩
          else some ⟨m, pow10 fk * pow10 (-e).toNat⟩
    | _ =>
      if ik = 0 then none
      else
        let e := expPart rest
        if 0 ≤ e then some ⟨(iv : Int) * (pow10 e.toNat : Nat), 1⟩
        else some ⟨(iv : Int), pow10 (-e).toNat⟩

/-- Model of `parseFloat`: leading whitespace, optional sign, then either
the literal `Infinity` or a decimal literal; NaN when no numeric prefix
exists.  Overflow of huge finite literals to `Infinity` is not modelled
(no property proved here depends on it). -/
def jsParseFloat (s : Str) : JsNum :=
  let t := JsStr.dropLeadWs s
  let (neg, t') :=
    match t with
    | '-' :: r => (true, r)
    | '+' :: r => (false, r)
    | _ => (false, t)
  match JsStr.stripLit "Infinity".toList t' with
  | some _ => .inf (!neg)
  | none =>
    match decPart t' with
    | some q => .fin (if neg then ⟨-q.num, q.den⟩ else q)
    | none => .nan

end JsNum

/-- JSON values as produced by `JSON.parse`: null, booleans, numbers,
strings, arrays and objects (member lists in textual order). -/
inductive Json where
  | null : Json
  | bool : Bool → Json
  | num : Q → Json
  | str : Str → Json
  | arr : List Json → Json
  | obj : List (Str × Json) → Json

namespace Json

/-- Is the value an array? -/
def isArr : Json → Bool
  | .arr _ => true
  | _ => false

/-- Property access `o.key` on a parse result: on an object the last
member with the given key wins (JavaScript object-literal semantics);
on any other value the access yields `none` (JavaScript `undefined`). -/
def get (k : Str) : Json → Option Json
  | .obj ms => go ms none
  | _ => none
where
  /-- Scans members keeping the last binding for `k`. -/
  go : List (Str × Json) → Option Json → Option Json
    | [], acc => acc
    | (k', v) :: r, acc => go r (if k' = k then some v else acc)

/-- Truthiness of a JavaScript value that may be absent (`undefined`):
absent, `null`, `false`, `0` and the empty string are falsy. -/
def truthy : Option Json → Bool
  | none => false
  | some .null => false
  | some (.bool b) => b
  | some (.num q) => !(q.num = 0)
  | some (.str s) => !s.isEmpty
  | some (.arr _) => true
  | some (.obj _) => true

end Json

namespace JsonParse

/-- JSON whitespace (the four characters the JSON grammar allows). -/
def isJWs (c : Char) : Bool :=
  c = ' ' || c = Char.ofNat 9 || c = Char.ofNat 10 || c = Char.ofNat 13

/-- Skip JSON whitespace. -/
def skipWs : Str → Str
  | [] => []
  | c :: r => if isJWs c then skipWs r else c :: r

/-- Hexadecimal digit value. -/
def hexVal (c : Char) : Option Nat :=
  if '0' ≤ c ∧ c ≤ '9' then some (c.toNat - '0'.toNat)
  else if 'a' ≤ c ∧ c ≤ 'f' then some (c.toNat - 'a'.toNat + 10)
  else if 'A' ≤ c ∧ c ≤ 'F' then some (c.toNat - 'A'.toNat + 10)
  else none

/-- Body of a JSON string literal after the opening quote: content and rest
after the closing quote.  Raw control characters and invalid escapes are
parse errors, as in strict `JSON.parse`. -/
def strBody : Str → Option (Str × Str)
  | [] => none
  | c :: r =>
    if c = '"' then some ([], r)
    else if c = '\\' then
      match r with
      | [] => none
      | e :: r' =>
        if e = 'u' then
          match r' with
          | h1 :: h2 :: h3 :: h4 :: r'' =>
            match hexVal h1, hexVal h2, hexVal h3, hexVal h4 with
            | some a, some b, some c', some d =>
              match strBody r'' with
              | some (s, t) => some (Char.ofNat (((a * 16 + b) * 16 + c') * 16 + d) :: s, t)
              | none => none
            | _, _, _, _ => none
          | _ => none
        else
          match escChar e with
          | some ch =>
            match strBody r' with
            | some (s, t) => some (ch :: s, t)
            | none => none
          | none => none
    else if c.toNat < 32 then none
    else
      match strBody r with
      | some (s, t) => some (c :: s, t)
      | none => none
where
  /-- Single-character escape codes of JSON string literals. -/
  escChar (e : Char) : Option Char :=
    if e = '"' then some '"'
    else if e = '\\' then some '\\'
    else if e = '/' then some '/'
    else if e = 'b' then some (Char.ofNat 8)
    else if e = 'f' then some (Char.ofNat 12)
    else if e = 'n' then some (Char.ofNat 10)
    else if e = 'r' then some (Char.ofNat 13)
    else if e = 't' then some (Char.ofNat 9)
    else none

/-- Integer digit run for JSON numbers (value, count, rest). -/
def jDigits : Str → Nat → Nat → (Nat × Nat × Str)
  | [], v, k => (v, k, [])
  | c :: r, v, k =>
    if '0' ≤ c ∧ c ≤ '9' then jDigits r (v * 10 + (c.toNat - '0'.toNat)) (k + 1)
    else (v, k, c :: r)

/-- JSON number literal: integer part (no leading zeros), optional fraction,
optional exponent.  Returns the exact value and the rest. -/
def numLit (s : Str) : Option (Q × Str) :=
  let (neg, s₁) := match s with | '-' :: r => (true, r) | _ => (false, s)
  match s₁ with
  | [] => none
  | c :: _ =>
    if ¬('0' ≤ c ∧ c ≤ '9') then none
    else
      match jDigits s₁ 0 0 with
      | (iv, ik, rest) =>
        -- JSON forbids a multi-digit integer part starting with 0.
        if c = '0' ∧ ik ≠ 1 then none
        else
          match rest with
          | '.' :: r =>
            match jDigits r 0 0 with
            | (_, 0, _) => none
            | (fv, fk, rest') =>
              let (e, rest'') := expSuffix rest'
              match e with
              | some ex =>
                finish neg (iv * JsNum.pow10 fk + fv) fk ex rest''
              | none => none
          | _ =>
            let (e, rest'') := expSuffix rest
            match e with
            | some ex => finish neg iv 0 ex rest''
            | none => none
where
  /-- Optional exponent: `none` signals a malformed exponent (parse error). -/
  expSuffix : Str → Option Int × Str
    | c :: r =>
      if c = 'e' ∨ c = 'E' then
        match r with
        | '+' :: r' =>
          (match jDigits r' 0 0 with
           | (_, 0, _) => (none, r')
           | (v, _, rest) => (some (v : Int), rest))
        | '-' :: r' =>
          (match jDigits r' 0 0 with
           | (_, 0, _) => (none, r')
           | (v, _, rest) => (some (-(v : Int)), rest))
        | _ =>
          (match jDigits r 0 0 with
           | (_, 0, _) => (none, r)
           | (v, _, rest) => (some (v : Int), rest))
      else (some 0, c :: r)
    | [] => (some 0, [])
  /-- Assembles the exact rational value. -/
  finish (neg : Bool) (m fk : Nat) (ex : Int) (rest : Str) : Option (Q × Str) :=
    let sm : Int := if neg then -(m : Int) else (m : Int)
    if 0 ≤ ex then some (⟨sm * (JsNum.pow10 ex.toNat : Nat), JsNum.pow10 fk⟩, rest)
    else some (⟨sm, JsNum.pow10 fk * JsNum.pow10 (-ex).toNat⟩, rest)

/-- Parsing mode: a value, the tail of an array, or the tail of an object,
with the members read so far (in reverse). -/
inductive PMode where
  | val : PMode
  | arrTail : List Json → PMode
  | objTail : List (Str × Json) → PMode

/-- Recursive-descent JSON parser, fuel-indexed so that every recursive call
is structural.  `pj fuel .val s` parses one value from `s` and returns it
with the unconsumed rest. -/
def pj : Nat → PMode → Str → Option (Json × Str)
  | 0, _, _ => none
  | f + 1, .val, s =>
    match skipWs s with
    | [] => none
    | c :: r =>
      if c = 'n' then
        match JsStr.stripLit "ull".toList r with
        | some r' => some (.null, r')
        | none => none
      else if c = 't' then
        match JsStr.stripLit "rue".toList r with
        | some r' => some (.bool true, r')
        | none => none
      else if c = 'f' then
        match JsStr.stripLit "alse".toList r with
        | some r' => some (.bool false, r')
        | none => none
      else if c = '"' then
        match strBody r with
        | some (str, r') => some (.str str, r')
        | none => none
      else if c = '[' then
        match skipWs r with
        | ']' :: r' => some (.arr [], r')
        | r₂ =>
          match pj f .val r₂ with
          | some (v, r') => pj f (.arrTail [v]) r'
          | none => none
      else if c = JsStr.lbrace then
        match skipWs r with
        | c' :: r' =>
          if c' = JsStr.rbrace then some (.obj [], r')
          else if c' = '"' then
            match strBody r' with
            | some (k, r₂) =>
              match skipWs r₂ with
              | ':' :: r₃ =>
                match pj f .val r₃ with
                | some (v, r₄) => pj f (.objTail [(k, v)]) r₄
                | none => none
              | _ => none
            | none => none
          else none
        | [] => none
      else
        match numLit (c :: r) with
        | some (q, r') => some (.num q, r')
        | none => none
  | f + 1, .arrTail acc, s =>
    match skipWs s with
    | ']' :: r => some (.arr acc.reverse, r)
    | ',' :: r =>
      match pj f .val r with
      | some (v, r') => pj f (.arrTail (v :: acc)) r'
      | none => none
    | _ => none
  | f + 1, .objTail acc, s =>
    match skipWs s with
    | c :: r =>
      if c = JsStr.rbrace then some (.obj acc.reverse, r)
      else if c = ',' then
        match skipWs r with
        | '"' :: r' =>
          match strBody r' with
          | some (k, r₂) =>
            match skipWs r₂ with
            | ':' :: r₃ =>
              match pj f .val r₃ with
              | some (v, r₄) => pj f (.objTail ((k, v) :: acc)) r₄
              | none => none
            | _ => none
          | none => none
        | _ => none
      else none
    | [] => none

/-- Model of strict `JSON.parse`: the whole input must be one JSON text,
possibly surrounded by whitespace; `none` models a thrown `SyntaxError`. -/
def jsonParse (s : Str) : Option Json :=
  match pj (2 * s.length + 8) .val s with
  | some (v, rest) => if (skipWs rest).isEmpty then some v else none
  | none => none

end JsonParse

namespace Rx

/-- Apostrophe character. -/
def squote : Char := Char.ofNat 39

/-- Take the longest run of characters satisfying `p`. -/
def takeRun (p : Char → Bool) : Str → Str
  | [] => []
  | c :: r => if p c then c :: takeRun p r else []

/-- Drop the longest run of characters satisfying `p`. -/
def dropRun (p : Char → Bool) : Str → Str
  | [] => []
  | c :: r => if p c then dropRun p r else c :: r

/-- Split at the first occurrence of `ch`: the part before it and the part
after it (the character itself consumed), or `none` when absent. -/
def splitAtChar (ch : Char) : Str → Option (Str × Str)
  | [] => none
  | c :: r =>
    if c = ch then some ([], r)
    else
      match splitAtChar ch r with
      | some (a, b) => some (c :: a, b)
      | none => none

/-- Index of the first occurrence of `ch`. -/
def idxOf (ch : Char) : Str → Option Nat
  | [] => none
  | c :: r =>
    if c = ch then some 0
    else
      match idxOf ch r with
      | some i => some (i + 1)
      | none => none

/-- Index of the last occurrence of `ch`. -/
def lastIdxOf (ch : Char) (s : Str) : Option Nat :=
  match idxOf ch s.reverse with
  | some i => some (s.length - 1 - i)
  | none => none

/-- One global-replace step machine: a matcher receives the current suffix
and, on a hit, yields the replacement text together with the suffix after
the matched span.  `gRep` realises `String.prototype.replace` with a global
regex: non-overlapping matches found left to right on the original string,
the replacement never rescanned.  Every matcher used here consumes at least
one character, so fuel `length + 1` is exact. -/
def gRepGo (m : Str → Option (Str × Str)) : Nat → Str → Str
  | 0, s => s
  | _ + 1, [] => []
  | f + 1, c :: r =>
    match m (c :: r) with
    | some (rep, rest) => rep ++ gRepGo m f rest
    | none => c :: gRepGo m f r

/-- Global regex replacement (see `gRepGo`). -/
def gRep (m : Str → Option (Str × Str)) (s : Str) : Str :=
  gRepGo m (s.length + 1) s

/-- Non-global regex replacement: only the first match is replaced. -/
def fRep (m : Str → Option (Str × Str)) : Str → Str
  | [] => []
  | c :: r =>
    match m (c :: r) with
    | some (rep, rest) => rep ++ rest
    | none => c :: fRep m r

end Rx

namespace RobustJSONParser

open Rx JsStr

/-- Result record of `RobustJSONParser.parse` (`JSONParseResult` in the
source): success flag, parsed data, error message, and the two length
diagnostics. -/
structure JSONParseResult where
  success : Bool
  data : Option Json
  error : Option Str
  originalLength : Nat
  cleanedLength : Nat

/-- Matcher for the global pattern `/\\\\"/` (two backslashes and a quote),
replaced by a single quote. -/
def mDoubleEsc : Str → Option (Str × Str)
  | '\\' :: '\\' :: '"' :: r => some (['"'], r)
  | _ => none

/-- Matcher for the global pattern `/\\"/` (backslash quote), replaced by a
quote. -/
def mSingleEsc : Str → Option (Str × Str)
  | '\\' :: '"' :: r => some (['"'], r)
  | _ => none

/-- Matcher for `/"([^"]*)\\",\s*\\\\"([^"]*)"([^"]*):/g` with replacement
`"$1", "$2$3":`.  Since `[^"]*` cannot cross a quote, the quote closing
group 1 is the first quote after the opener and must be preceded by a
backslash; group 3 is bounded by the last colon inside the following
quote-free run — the deterministic residue of the backtracking search. -/
def mPatC : Str → Option (Str × Str)
  | '"' :: r => do
    let (before, after) ← splitAtChar '"' r
    if h : before = [] then none
    else
      if before.getLast h ≠ '\\' then none
      else
        let g1 := before.dropLast
        match after with
        | ',' :: a1 =>
          match dropRun JsStr.isWs a1 with
          | '\\' :: '\\' :: '"' :: a3 => do
            let (g2, a4) ← splitAtChar '"' a3
            let run := takeRun (fun c => c ≠ '"') a4
            let i ← lastIdxOf ':' run
            let g3 := run.take i
            some ('"' :: g1 ++ '"' :: ',' :: ' ' :: '"' :: g2 ++ g3 ++ ['"', ':'],
                  a4.drop (i + 1))
          | _ => none
        | _ => none
  | _ => none

/-- Matcher for `/"([^"]*)\\":\s*([^,}]+),\s*\\\\"([^"]*)"([^"]*):/g` with
replacement `"$1": $2, "$3$4":`. -/
def mPatD : Str → Option (Str × Str)
  | '"' :: r => do
    let (before, after) ← splitAtChar '"' r
    if h : before = [] then none
    else
      if before.getLast h ≠ '\\' then none
      else
        let g1 := before.dropLast
        match after with
        | ':' :: a1 =>
          let a2 := dropRun JsStr.isWs a1
          let g2 := takeRun (fun c => c ≠ ',' ∧ c ≠ JsStr.rbrace) a2
          if g2.isEmpty then none
          else
            match a2.drop g2.length with
            | ',' :: a4 =>
              match dropRun JsStr.isWs a4 with
              | '\\' :: '\\' :: '"' :: a6 => do
                let (g3, a7) ← splitAtChar '"' a6
                let run := takeRun (fun c => c ≠ '"') a7
                let i ← lastIdxOf ':' run
                let g4 := run.take i
                some ('"' :: g1 ++ '"' :: ':' :: ' ' :: g2 ++ ',' :: ' ' :: '"' :: g3 ++ g4 ++ ['"', ':'],
                      a7.drop (i + 1))
              | _ => none
            | _ => none
        | _ => none
  | _ => none

/-- Matcher for `/"([^"]*)\\"\s*}/g` with replacement `"$1" }`. -/
def mPatE : Str → Option (Str × Str)
  | '"' :: r => do
    let (before, after) ← splitAtChar '"' r
    if h : before = [] then none
    else
      if before.getLast h ≠ '\\' then none
      else
        let g1 := before.dropLast
        match dropRun JsStr.isWs after with
        | c :: rest =>
          if c = JsStr.rbrace then some ('"' :: g1 ++ ['"', ' ', JsStr.rbrace], rest)
          else none
        | [] => none
  | _ => none

/-- Non-global `/\{[^}]*$/` with empty replacement: drop the first opening
brace that has no closing brace anywhere after it, together with everything
that follows. -/
def remIncompleteObj (s : Str) : Str :=
  match lastIdxOf JsStr.rbrace s with
  | some k =>
    let head := s.take (k + 1)
    let tail := s.drop (k + 1)
    match idxOf JsStr.lbrace tail with
    | some i => head ++ tail.take i
    | none => s
  | none =>
    match idxOf JsStr.lbrace s with
    | some i => s.take i
    | none => s

/-- Non-global `/,\s*$/` with empty replacement: drop a final comma and the
whitespace after it. -/
def remTrailComma (s : Str) : Str :=
  let t := JsStr.dropTrailWs s
  match t.reverse with
  | ',' :: rest => rest.reverse
  | _ => s

/-- Matcher for `/,\s*\]/` with replacement `]`. -/
def mCommaBracket : Str → Option (Str × Str)
  | ',' :: r =>
    match dropRun JsStr.isWs r with
    | ']' :: rest => some ([']'], rest)
    | _ => none
  | _ => none

/-- Model of `fixGeminiAPIIssues`: collapse doubled and single escaped
quotes, rewrite the three malformed property patterns, then drop an
incomplete trailing object, a trailing comma, and the first comma before a
closing bracket. -/
def fixGeminiAPIIssues (jsonString : Str) : Str :=
  let f1 := gRep mSingleEsc (gRep mDoubleEsc jsonString)
  let f2 := gRep mPatE (gRep mPatD (gRep mPatC f1))
  fRep mCommaBracket (remTrailComma (remIncompleteObj f2))

/-- Matcher for `/([{,]\s*)([a-zA-Z_$][a-zA-Z0-9_$]*)\s*:/g` with
replacement `$1"$2":` (quote bareword keys). -/
def mBareKey : Str → Option (Str × Str)
  | c :: r =>
    if c = JsStr.lbrace ∨ c = ',' then
      let ws := takeRun JsStr.isWs r
      match r.drop ws.length with
      | i0 :: r2 =>
        if ('a' ≤ i0 ∧ i0 ≤ 'z') ∨ ('A' ≤ i0 ∧ i0 ≤ 'Z') ∨ i0 = '_' ∨ i0 = '$' then
          let identTail := takeRun (fun ch =>
            ('a' ≤ ch ∧ ch ≤ 'z') ∨ ('A' ≤ ch ∧ ch ≤ 'Z') ∨
            ('0' ≤ ch ∧ ch ≤ '9') ∨ ch = '_' ∨ ch = '$') r2
          let r3 := r2.drop identTail.length
          let ws2 := takeRun JsStr.isWs r3
          match r3.drop ws2.length with
          | ':' :: rest =>
            some (c :: ws ++ '"' :: i0 :: identTail ++ ['"', ':'], rest)
          | _ => none
        else none
      | [] => none
    else none
  | [] => none

/-- Matcher for the global doubled-quote collapse `/""/g`. -/
def mDoubleQuote : Str → Option (Str × Str)
  | '"' :: '"' :: r => some (['"'], r)
  | _ => none

/-- Matcher for `/,(\s*[}\]])/g` with replacement `$1` (drop a comma that
precedes a closing brace or bracket). -/
def mCommaClose : Str → Option (Str × Str)
  | ',' :: r =>
    let ws := takeRun JsStr.isWs r
    match r.drop ws.length with
    | b :: rest =>
      if b = JsStr.rbrace ∨ b = ']' then some (ws ++ [b], rest) else none
    | [] => none
  | _ => none

/-- Matcher for `/,(\s*$)/g` with replacement `$1` (drop a comma followed
only by whitespace up to the end). -/
def mCommaEnd : Str → Option (Str × Str)
  | ',' :: r => if (dropRun JsStr.isWs r).isEmpty then some (r, []) else none
  | _ => none

/-- Removal pass for the control-character class
`[\x00-\x08\x0B\x0C\x0E-\x1F\x7F]`. -/
def stripCtl1 (s : Str) : Str :=
  s.filter (fun c =>
    !(c.toNat ≤ 8 || c.toNat = 11 || c.toNat = 12 ||
      (14 ≤ c.toNat && c.toNat ≤ 31) || c.toNat = 127))

/-- Removal pass for the control-character class
`[\u0000-\u001F\u007F-\u009F]`. -/
def stripCtl2 (s : Str) : Str :=
  s.filter (fun c => !(c.toNat ≤ 31 || (127 ≤ c.toNat && c.toNat ≤ 159)))

/-- Matcher collapsing a whitespace run to one space (`/\s+/g` → `' '`). -/
def mWsRun : Str → Option (Str × Str)
  | c :: r => if JsStr.isWs c then some ([' '], dropRun JsStr.isWs r) else none
  | [] => none

/-- Strip a leading markdown fence `/^```json\s*/i`. -/
def stripLeadFence (s : Str) : Str :=
  match JsStr.stripLitCI "```json".toList s with
  | some r => dropRun JsStr.isWs r
  | none => s

/-- Strip a trailing markdown fence `/\s*```$/i`. -/
def stripTrailFence (s : Str) : Str :=
  match JsStr.stripLit "```".toList s.reverse with
  | some r => (dropRun JsStr.isWs r).reverse
  | none => s

/-- Model of `cleanAndRepair`: trimming, fence stripping, control-character
removal, whitespace collapse, the Gemini-specific fixes, bareword-key
quoting, quote normalisation and trailing-comma removal, in source order. -/
def cleanAndRepair (jsonString : Str) : Str :=
  let c1 := JsStr.trim (stripTrailFence (stripLeadFence (JsStr.trim jsonString)))
  let c2 := JsStr.trim (gRep mWsRun (stripCtl2 (stripCtl1 c1)))
  let c3 := fixGeminiAPIIssues c2
  let c4 := gRep mBareKey c3
  let c5 := gRep mDoubleQuote (c4.map (fun ch => if ch = Rx.squote then '"' else ch))
  gRep mCommaEnd (gRep mCommaClose c5)

/-- Non-global `/,\s*\{[^}]*$/` with empty replacement: drop a trailing
comma-plus-incomplete-object at the end of an array. -/
def mIncompleteArrTail : Str → Option (Str × Str)
  | ',' :: r =>
    match dropRun JsStr.isWs r with
    | c :: r2 =>
      if c = JsStr.lbrace ∧ ¬ (r2.any (fun ch => ch = JsStr.rbrace)) then some ([], [])
      else none
    | [] => none
  | _ => none

/-- Model of `fixArrayStructure`. -/
def fixArrayStructure (arrayString : Str) : Str :=
  let a1 := fRep mCommaBracket (fRep mIncompleteArrTail arrayString)
  let a2 := if a1.head? = some '[' then a1 else '[' :: a1
  if a2.getLast? = some ']' then a2 else a2 ++ [']']

/-- Non-global `/,\s*"[^"]*":\s*[^,}]*$/` with empty replacement: drop an
incomplete trailing property of an object. -/
def mIncompleteProp : Str → Option (Str × Str)
  | ',' :: r =>
    match dropRun JsStr.isWs r with
    | '"' :: r2 =>
      match Rx.splitAtChar '"' r2 with
      | some (_, r3) =>
        match r3 with
        | ':' :: r4 =>
          let r5 := dropRun JsStr.isWs r4
          if r5.all (fun ch => ch ≠ ',' ∧ ch ≠ JsStr.rbrace) then some ([], [])
          else none
        | _ => none
      | none => none
    | _ => none
  | _ => none

/-- Matcher for `/,\s*\}/` with replacement `}`. -/
def mCommaBrace : Str → Option (Str × Str)
  | ',' :: r =>
    match dropRun JsStr.isWs r with
    | c :: rest => if c = JsStr.rbrace then some ([JsStr.rbrace], rest) else none
    | [] => none
  | _ => none

/-- Model of `fixObjectStructure`. -/
def fixObjectStructure (objectString : Str) : Str :=
  let o1 := fRep mCommaBrace (fRep mIncompleteProp objectString)
  let o2 := if o1.head? = some JsStr.lbrace then o1 else JsStr.lbrace :: o1
  if o2.getLast? = some JsStr.rbrace then o2 else o2 ++ [JsStr.rbrace]

/-- Greedy span from the first occurrence of `o` to the last occurrence of
`c` — the match of `/\[[\s\S]*\]/` (resp. the brace version). -/
def greedySpan (o c : Char) (s : Str) : Option Str :=
  match Rx.idxOf o s, Rx.lastIdxOf c s with
  | some i, some j => if i < j then some ((s.drop i).take (j - i + 1)) else none
  | _, _ => none

/-- Model of `extractValidJSON`: try the greedy array span (raw, then with
`fixArrayStructure`), then the greedy object span (raw, then with
`fixObjectStructure`). -/
def extractValidJSON (jsonString : Str) : Option Str :=
  let tryArr :=
    match greedySpan '[' ']' jsonString with
    | some ext =>
      if (JsonParse.jsonParse ext).isSome then some ext
      else
        let fixed := fixArrayStructure ext
        if (JsonParse.jsonParse fixed).isSome then some fixed else none
    | none => none
  match tryArr with
  | some r => some r
  | none =>
    match greedySpan JsStr.lbrace JsStr.rbrace jsonString with
    | some ext =>
      if (JsonParse.jsonParse ext).isSome then some ext
      else
        let fixed := fixObjectStructure ext
        if (JsonParse.jsonParse fixed).isSome then some fixed else none
    | none => none

/-- Model of `reconstructFromFragments`: the source returns `null`
(strategy not implemented). -/
def reconstructFromFragments (_jsonString : Str) : Option Str :=
  none

/-- Model of `RobustJSONParser.parse`: strategy 1 parses the input as-is,
strategy 2 parses the cleaned text, strategy 3 parses an extracted span,
strategy 4 (fragment reconstruction) is unimplemented in the source, and
otherwise a failure record with both length diagnostics is returned. -/
def parse (jsonString : Str) : JSONParseResult :=
  let originalLength := jsonString.length
  match JsonParse.jsonParse jsonString with
  | some d => ⟨true, some d, none, originalLength, jsonString.length⟩
  | none =>
    let cleaned := cleanAndRepair jsonString
    match JsonParse.jsonParse cleaned with
    | some d => ⟨true, some d, none, originalLength, cleaned.length⟩
    | none =>
      match extractValidJSON cleaned with
      | some extracted =>
        match JsonParse.jsonParse extracted with
        | some d => ⟨true, some d, none, originalLength, extracted.length⟩
        | none => fallbackResult originalLength cleaned
      | none =>
        match reconstructFromFragments cleaned with
        | some reconstructed =>
          match JsonParse.jsonParse reconstructed with
          | some d => ⟨true, some d, none, originalLength, reconstructed.length⟩
          | none => fallbackResult originalLength cleaned
        | none => fallbackResult originalLength cleaned
where
  /-- Failure record of the final fallback branch. -/
  fallbackResult (originalLength : Nat) (cleaned : Str) : JSONParseResult :=
    ⟨false, none, some "All parsing strategies failed".toList, originalLength, cleaned.length⟩

/-- Model of `parseWithRetry`: repeat `parse` up to `maxRetries` times,
returning the first success; on exhaustion, a failure record whose
`cleanedLength` is 0, as in the source. -/
def parseWithRetry (jsonString : Str) (maxRetries : Nat := 3) : JSONParseResult :=
  go maxRetries
where
  /-- Remaining-attempts loop. -/
  go : Nat → JSONParseResult
    | 0 => ⟨false, none, some "All attempts failed".toList, jsonString.length, 0⟩
    | n + 1 =>
      let result := parse jsonString
      if result.success then result else go n

end RobustJSONParser

/-- Model of the convenience function `parseJSONWithRetry`: the parsed data
on success, `none` otherwise. -/
def parseJSONWithRetry (jsonString : Str) (maxRetries : Nat := 3) : Option Json :=
  let result := RobustJSONParser.parseWithRetry jsonString maxRetries
  if result.success then result.data else none

/-- Model of the `ParsedExpense` record.  Transaction dates are abstracted
to integer timestamps: the source threads ISO strings produced by
`toISOString` and re-parses them with `new Date`, a round trip that is the
identity on valid timestamps. -/
structure ParsedExpense where
  amount : JsNum
  merchant : Str
  date : Int
  category : Option Str
  location : Option Str
  currency : Option Str
  deriving DecidableEq

/-- Payload of one element returned by the batch categorizer: the parsed
path spreads the JSON element the model returned, while the regex-fallback
and failure paths spread the original expense record. -/
inductive Payload where
  | ofExpense : ParsedExpense → Payload
  | ofJson : Json → Payload

/-- One element of the batch categorizer's output: a payload with the
`category` field written last, hence overriding. -/
structure OutRec where
  payload : Payload
  category : Str

/-- The closed category set `EXPENSE_CATEGORIES` of the source. -/
def EXPENSE_CATEGORIES : List Str :=
  ["Groceries".toList, "Transportation".toList, "Food & Dining".toList,
   "Shopping".toList, "Utilities".toList, "Healthcare".toList,
   "Entertainment".toList, "Education".toList, "Insurance".toList,
   "Travel".toList, "Home & Garden".toList, "Personal Care".toList,
   "Business".toList, "Gifts & Donations".toList, "Other".toList]

namespace Categorizer

/-- Matcher for one occurrence of `/"category":\s*"([^"]+)"/`, returning
the capture and the rest after the closing quote. -/
def mCategoryPat (s : Str) : Option (Str × Str) :=
  match JsStr.stripLit "\"category\":".toList s with
  | some r =>
    match Rx.dropRun JsStr.isWs r with
    | '"' :: r2 =>
      let cap := Rx.takeRun (fun c => c ≠ '"') r2
      if cap.isEmpty then none
      else
        match r2.drop cap.length with
        | '"' :: rest => some (cap, rest)
        | _ => none
    | _ => none
  | none => none

/-- All captures of the global regex `/"category":\s*"([^"]+)"/g`,
left to right, non-overlapping. -/
def categoryCaptures (s : Str) : List Str :=
  go (s.length + 1) s
where
  /-- Fueled global scan. -/
  go : Nat → Str → List Str
    | 0, _ => []
    | _ + 1, [] => []
    | f + 1, c :: r =>
      match mCategoryPat (c :: r) with
      | some (cap, rest) => cap :: go f rest
      | none => go f r

/-- All captures of the global regex `/"([^"]+)"/g` (quoted non-empty
strings), left to right, non-overlapping. -/
def quotedStrings (s : Str) : List Str :=
  go (s.length + 1) s
where
  /-- Fueled global scan. -/
  go : Nat → Str → List Str
    | 0, _ => []
    | _ + 1, [] => []
    | f + 1, c :: r =>
      if c = '"' then
        let cap := Rx.takeRun (fun ch => ch ≠ '"') r
        if cap.isEmpty then go f r
        else
          match r.drop cap.length with
          | '"' :: rest => cap :: go f rest
          | _ => go f r
      else go f r

/-- Filter applied to quoted strings when hunting for category-like text:
length bounds and absence of structural characters, not purely numeric. -/
def looksLikeCategory (s : Str) : Bool :=
  2 < s.length && s.length < 50 &&
  !(s.any (fun c => c = JsStr.lbrace)) && !(s.any (fun c => c = JsStr.rbrace)) &&
  !(s.any (fun c => c = '[')) && !(s.any (fun c => c = ']')) &&
  !(s.any (fun c => c = ':')) && !(s.any (fun c => c = ',')) &&
  !(!s.isEmpty && s.all (fun c => '0' ≤ c ∧ c ≤ '9')) &&
  !(decide (isDecimalForm s = true))
where
  /-- Shape `/^\d+\.\d+$/`. -/
  isDecimalForm (t : Str) : Bool :=
    let d1 := Rx.takeRun (fun c => '0' ≤ c ∧ c ≤ '9') t
    if d1.isEmpty then false
    else
      match t.drop d1.length with
      | '.' :: r =>
        let d2 := Rx.takeRun (fun c => '0' ≤ c ∧ c ≤ '9') r
        !d2.isEmpty && (r.drop d2.length).isEmpty
      | _ => false

/-- Pairs each original expense with `categories[index] || 'Unknown'`
(out-of-range indices yield the `Unknown` sentinel). -/
def assignCats (categories : List Str) : List ParsedExpense → List OutRec
  | [] => []
  | e :: es =>
    ⟨.ofExpense e, (categories.head?).getD "Unknown".toList⟩ :: assignCats categories.tail es

/-- Model of `extractCategoriesWithRegex`: scrape `"category": "X"`
occurrences and pair them positionally with the original expenses — the
scraped strings are used verbatim, with no membership check; failing that,
hunt for quoted strings that are members of the closed set; failing that,
return the empty list. -/
def extractCategoriesWithRegex (response : Str) (originalExpenses : List ParsedExpense) :
    List OutRec :=
  let categoryMatches := categoryCaptures response
  if ¬categoryMatches.isEmpty then
    assignCats categoryMatches originalExpenses
  else
    let allQuotedStrings := quotedStrings response
    if ¬allQuotedStrings.isEmpty then
      let potentialCategories := allQuotedStrings.filter looksLikeCategory
      let validCategories := potentialCategories.filter (EXPENSE_CATEGORIES.contains ·)
      if ¬validCategories.isEmpty then
        assignCats validCategories originalExpenses
      else []
    else []

/-- Category to attach for one parsed array element: `expense.category ||
'Unknown'` followed by the closed-set membership check.  A falsy or
non-string value of `category` and an out-of-set string all end at the
`Unknown` sentinel (a non-string value is truthy but never `includes`-equal
to any member), so the model collapses those branches. -/
def elementCategory (expense : Json) : Str :=
  match expense.get "category".toList with
  | some (.str s) =>
    if s.isEmpty then "Unknown".toList
    else if EXPENSE_CATEGORIES.contains s then s else "Unknown".toList
  | _ => "Unknown".toList

/-- Model of `parseBatchResponse`: parse via `parseJSONWithRetry`; on
failure or on a non-array result, fall back to regex extraction; on an
array, map each parsed element to itself with its (checked) category. -/
def parseBatchResponse (response : Str) (originalExpenses : List ParsedExpense) :
    List OutRec :=
  match parseJSONWithRetry response 3 with
  | none => extractCategoriesWithRegex response originalExpenses
  | some parsed =>
    match parsed with
    | .arr items => items.map (fun expense => ⟨.ofJson expense, elementCategory expense⟩)
    | _ => extractCategoriesWithRegex response originalExpenses

/-- The failure fallback `{...expense, category: 'Unknown'}`. -/
def setUnknown (e : ParsedExpense) : OutRec :=
  ⟨.ofExpense e, "Unknown".toList⟩

/-- Outcome of `batchCategorizeExpenses` instrumented with the trace of
chunks handed to the external call, in order of issue. -/
structure BatchRun where
  result : List OutRec
  calls : List (List ParsedExpense)

/-- Chunk loop of `batchCategorizeExpenses` (`for i += maxBatchSize`),
fueled.  A failing call propagates to the surrounding catch, which returns
every input expense with the `Unknown` category. -/
def chunkGo (call : List ParsedExpense → Except Unit Str) (all : List ParsedExpense) :
    Nat → List ParsedExpense → List OutRec → List (List ParsedExpense) → BatchRun
  | 0, _, accR, accC => ⟨accR, accC⟩
  | f + 1, remaining, accR, accC =>
    if remaining.length = 0 then ⟨accR, accC⟩
    else
      let chunk := remaining.take 10
      match call chunk with
      | .error _ => ⟨all.map setUnknown, accC ++ [chunk]⟩
      | .ok response =>
        chunkGo call all f (remaining.drop 10)
          (accR ++ parseBatchResponse response chunk) (accC ++ [chunk])

/-- Model of `batchCategorizeExpenses`.  `call` composes the prompt
construction with the external Gemini invocation: it maps the chunk to the
response text, or to an error when the call throws.  Inputs longer than
`maxBatchSize = 10` are processed in sequential chunks; a thrown call is
caught at function level and yields the `Unknown` fallback for all
expenses. -/
def batchCategorizeExpenses (call : List ParsedExpense → Except Unit Str)
    (expenses : List ParsedExpense) : BatchRun :=
  if expenses.length > 10 then
    chunkGo call expenses (expenses.length + 1) expenses [] []
  else
    match call expenses with
    | .ok response => ⟨parseBatchResponse response expenses, [expenses]⟩
    | .error _ => ⟨expenses.map setUnknown, [expenses]⟩

end Categorizer

/-- Model of `determineCategory`: keyword rules over the lower-cased
merchant name, in source order, defaulting to `Other`. -/
def determineCategory (merchant : Str) : Str :=
  let merchantLower := JsStr.toLower merchant
  let incl (kw : String) : Bool := JsStr.hasSub merchantLower kw.toList
  if incl "grocery" || incl "market" || incl "supermarket" || incl "food" then
    "Groceries".toList
  else if incl "gas" || incl "fuel" || incl "shell" || incl "exxon" then
    "Transportation".toList
  else if incl "restaurant" || incl "cafe" || incl "pizza" || incl "burger" then
    "Food & Dining".toList
  else if incl "amazon" || incl "shop" then
    "Shopping".toList
  else if incl "electric" || incl "water" || incl "internet" || incl "phone" then
    "Utilities".toList
  else if incl "pharmacy" || incl "medical" || incl "doctor" || incl "hospital" then
    "Healthcare".toList
  else if incl "movie" || incl "theater" || incl "netflix" || incl "spotify" then
    "Entertainment".toList
  else
    "Other".toList

namespace EmailExtract

/-- Matcher at one position for the anchored field pattern
`/<p>\s*LABEL<\/p>\s*<\/td>\s*<td[^>]*>\s*<p>\s*([^<]+)/i`, returning the
capture.  The `[^>]*` run is deterministic (it must stop at the first `>`),
and the capture is the maximal run of non-`<` characters after the
whitespace.  (When that run is empty, the regex engine would backtrack the
final `\s*` and capture trailing whitespace, which every caller then trims
to the empty — falsy — string; the model returns no match in that case,
which is extensionally identical at every use site.) -/
def mField (label : Str) (s : Str) : Option Str := do
  let r1 ← JsStr.stripLitCI "<p>".toList s
  let r2 := Rx.dropRun JsStr.isWs r1
  let r3 ← JsStr.stripLitCI (label ++ "</p>".toList) r2
  let r4 := Rx.dropRun JsStr.isWs r3
  let r5 ← JsStr.stripLitCI "</td>".toList r4
  let r6 := Rx.dropRun JsStr.isWs r5
  let r7 ← JsStr.stripLitCI "<td".toList r6
  match r7.drop (Rx.takeRun (fun c => c ≠ '>') r7).length with
  | '>' :: r9 =>
    let r10 := Rx.dropRun JsStr.isWs r9
    let r11 ← JsStr.stripLitCI "<p>".toList r10
    let r12 := Rx.dropRun JsStr.isWs r11
    let cap := Rx.takeRun (fun c => c ≠ '<') r12
    if cap.isEmpty then none else some cap
  | _ => none

/-- First match of the field pattern anywhere in the text
(`String.prototype.match` without the global flag). -/
def fieldCapture (label : Str) : Str → Option Str
  | [] => none
  | c :: r =>
    match mField label (c :: r) with
    | some cap => some cap
    | none => fieldCapture label r

/-- Model of `parseExpenseFromTextWithoutAI`.  `dp` models the JavaScript
`Date` constructor on strings (`some t` exactly when the string parses to a
valid timestamp) and `now` the current processing time; `fromAddr` and
`hdrDate` are the `From` and `Date` header values passed by the caller. -/
def parseExpenseFromTextWithoutAI (dp : Str → Option Int) (now : Int)
    (text _fromAddr hdrDate : Str) : Option ParsedExpense :=
  let commerce := (fieldCapture "Comercio:".toList text).map JsStr.trim
  let dateMatch := (fieldCapture "Fecha:".toList text).map JsStr.trim
  let location := (fieldCapture "Ciudad y pa&iacute;s:".toList text).map
    (fun s => JsStr.replaceFirstChar ',' '.' (JsStr.trim s))
  let montoMatch := (fieldCapture "Monto:".toList text).map
    (fun s => JsStr.splitSp (JsStr.removeFirstChar ',' (JsStr.trim s)))
  match commerce, montoMatch with
  | none, _ => none
  | _, none => none
  | some com, some monto =>
    if com.isEmpty ∨ monto.length < 2 then none
    else
      let currency := monto.headD []
      let amountStr := (monto.drop 1).headD []
      let amount := JsNum.jsParseFloat amountStr
      if amount.isNaN || amount.leZero then none
      else
        let headerResolved :=
          match dp hdrDate with
          | some t => t
          | none => now
        let transactionDate :=
          match dateMatch with
          | some d =>
            if d.isEmpty then headerResolved
            else
              match dp d with
              | some t => t
              | none => headerResolved
          | none => headerResolved
        some ⟨amount, com, transactionDate, some "Other".toList,
              some ((location.filter (fun l => ¬l.isEmpty)).getD "Costa Rica".toList),
              some currency⟩

/-- Header of a Gmail message (name/value pair). -/
structure Header where
  name : Str
  value : Str
  deriving DecidableEq

/-- MIME part of a Gmail message body. -/
structure Part where
  mimeType : Str
  data : Option Str
  deriving DecidableEq

/-- Gmail message as consumed by the extractor.  The base64url transport
decoding of body payloads (`atob` after the URL-alphabet substitution) is a
bijection and is modelled as the identity: `data` carries decoded text. -/
structure GmailMessage where
  id : Str
  headers : List Header
  parts : Option (List Part)
  bodyData : Option Str
  deriving DecidableEq

/-- Body-content selection of `parseExpenseEmailWithoutAI`: the HTML part
if present with truthy data, else the plain-text part, else the direct body
data, else the empty string. -/
def htmlContentOf (m : GmailMessage) : Str :=
  match m.parts with
  | some parts =>
    let htmlData := (parts.find? (fun p => p.mimeType = "text/html".toList)).bind (·.data)
    match htmlData with
    | some d =>
      if d.isEmpty then fallbackText parts else d
    | none => fallbackText parts
  | none =>
    match m.bodyData with
    | some d => d
    | none => []
where
  /-- Plain-text fallback when no usable HTML part exists. -/
  fallbackText (parts : List Part) : Str :=
    match (parts.find? (fun p => p.mimeType = "text/plain".toList)).bind (·.data) with
    | some d => d
    | none => []

/-- Model of `parseExpenseEmailWithoutAI`: select headers and body content,
then run the text extractor.  The source wraps everything in a `try` whose
`catch` returns `null`; the model is total, so that branch is dead. -/
def parseExpenseEmailWithoutAI (dp : Str → Option Int) (now : Int)
    (m : GmailMessage) : Option ParsedExpense :=
  let header (n : String) : Str :=
    match m.headers.find? (fun h => h.name = n.toList) with
    | some h => h.value
    | none => []
  parseExpenseFromTextWithoutAI dp now (htmlContentOf m) (header "From") (header "Date")

end EmailExtract

/-- Database row written by the storage collaborator for one expense. -/
structure StoredRec where
  amount : JsNum
  category : Str
  location : Str
  currency : Str
  source : Str
  merchant : Str
  transactionDate : Int
  deriving DecidableEq

namespace Orchestrator

open Categorizer EmailExtract

/-- Amount of a batch-output record as the storage layer reads it:
`typeof expense.amount === 'number' ? expense.amount : parseFloat(expense.amount)`.
The string coercion of composite JSON values is abstracted to NaN. -/
def payloadAmount : Payload → JsNum
  | .ofExpense e => e.amount
  | .ofJson j =>
    match j.get "amount".toList with
    | some (.num q) => .fin q
    | some (.str s) => JsNum.jsParseFloat s
    | _ => .nan

/-- Transaction date of a batch-output record: `new Date(expense.date)`
with fallback to the current time when invalid.  For an expense payload the
date is a valid timestamp by construction (it came out of `toISOString`);
for a JSON payload a string member is parsed with `dp`, and other shapes
are abstracted to the invalid-date fallback. -/
def payloadDate (dp : Str → Option Int) (now : Int) : Payload → Int
  | .ofExpense e => e.date
  | .ofJson j =>
    match j.get "date".toList with
    | some (.str s) => (dp s).getD now
    | _ => now

/-- String field of a batch-output record with a falsy-default, as in
`(expense.location || 'Costa Rica').toString().trim()`.  Non-string truthy
JSON values (whose ToString the claims never observe) are abstracted to the
default. -/
def payloadStrField (get1 : ParsedExpense → Option Str) (key : String) (dflt : String) :
    Payload → Str
  | .ofExpense e =>
    match get1 e with
    | some s => if s.isEmpty then dflt.toList else JsStr.trim s
    | none => dflt.toList
  | .ofJson j =>
    match j.get key.toList with
    | some (.str s) => if s.isEmpty then dflt.toList else JsStr.trim s
    | _ => dflt.toList

/-- Merchant of a batch-output record: `expense.merchant.toString().trim()`
with no default.  A missing merchant would make the source throw inside the
store call (surfacing as a store failure, which the store-outcome
parameters cover); the model maps it to the empty string. -/
def payloadMerchant : Payload → Str
  | .ofExpense e => JsStr.trim e.merchant
  | .ofJson j =>
    match j.get "merchant".toList with
    | some (.str s) => JsStr.trim s
    | _ => []

/-- Cleaning and validation step of `storeParsedExpensesBatch` for one
record: reject NaN and non-positive amounts, default the optional fields,
and stamp the source as `gmail`. -/
def cleanExpense (dp : Str → Option Int) (now : Int) (r : OutRec) : Option StoredRec :=
  let amount := payloadAmount r.payload
  if amount.isNaN || amount.leZero then none
  else
    some ⟨amount,
          if r.category.isEmpty then "Other".toList else JsStr.trim r.category,
          payloadStrField (·.location) "location" "Costa Rica" r.payload,
          payloadStrField (·.currency) "currency" "CRC" r.payload,
          "gmail".toList,
          payloadMerchant r.payload,
          payloadDate dp now r.payload⟩

/-- Record built by the individual-store fallback `storeParsedExpense`,
which performs no amount validation. -/
def cleanExpenseOne (dp : Str → Option Int) (now : Int) (r : OutRec) : StoredRec :=
  ⟨payloadAmount r.payload,
   if r.category.isEmpty then "Other".toList else JsStr.trim r.category,
   payloadStrField (·.location) "location" "Costa Rica" r.payload,
   payloadStrField (·.currency) "currency" "CRC" r.payload,
   "gmail".toList,
   payloadMerchant r.payload,
   payloadDate dp now r.payload⟩

/-- Does a stored record's transaction date lie in the inclusive deletion
window (`transactionDate: {gte, lte}`)? -/
def inWindow (winStart winEnd : Int) (r : StoredRec) : Bool :=
  winStart ≤ r.transactionDate && r.transactionDate ≤ winEnd

/-- Model of the delete-by-range storage operation
(`prisma.transaction.deleteMany` with `transactionDate: {gte, lte}` for the
requesting user): removes every stored record whose date lies in the
inclusive window and reports how many it removed.  The window is keyed by
user and date only — the sender plays no role. -/
def deleteExistingTransactions (winStart winEnd : Int) (db : List StoredRec) :
    Nat × List StoredRec :=
  ((db.filter (inWindow winStart winEnd)).length,
   db.filter (fun r => !inWindow winStart winEnd r))

/-- Inputs of one orchestration run: the fetched messages, the date parser
and clock, the deletion window derived from month/year, the categorization
call, and the outcomes of the three storage interactions. -/
structure OrchArgs where
  messages : List GmailMessage
  dp : Str → Option Int
  now : Int
  winStart : Int
  winEnd : Int
  call : List ParsedExpense → Except Unit Str
  deleteOk : Bool
  storeBatchOk : Bool
  storeOneOk : OutRec → Bool

/-- Summary returned by `processEmailsFromSender`: the source returns
`{ processed, stored, deleted, errors, transactions }` — and no other
fields. -/
structure ImportSummary where
  processed : Nat
  stored : Nat
  deleted : Nat
  errors : Nat
  transactions : List OutRec

/-- Step 1 of the orchestrator: expenses extracted from the messages (a
`null` extraction is skipped silently; `processed` counts every message and
the error counter is untouched, since `parseExpenseEmailWithoutAI` catches
its own exceptions). -/
def rawExpensesOf (a : OrchArgs) : List ParsedExpense :=
  a.messages.filterMap (parseExpenseEmailWithoutAI a.dp a.now)

/-- Step 2 of the orchestrator: batch categorization.  The surrounding
`catch` (rule-based `determineCategory` fallback) is dead code, because
`batchCategorizeExpenses` catches its own failures and returns the
`Unknown` fallback instead of throwing. -/
def categorizedOf (a : OrchArgs) : List OutRec :=
  let raw := rawExpensesOf a
  if raw.isEmpty then []
  else (batchCategorizeExpenses a.call raw).result

/-- Records the run appends to storage.  On a successful batch store these
are the cleaned records that pass the amount filter; when the batch call
fails, the individual fallback stores (unvalidated) records for exactly the
expenses whose individual call succeeds.  Independent of the database
state. -/
def insertedOf (a : OrchArgs) : List StoredRec :=
  let cat := categorizedOf a
  if cat.isEmpty then []
  else if a.storeBatchOk then cat.filterMap (cleanExpense a.dp a.now)
  else (cat.filter a.storeOneOk).map (cleanExpenseOne a.dp a.now)

/-- The `stored` counter: the full categorized count on a successful batch
store (the source counts before its own filter), else the number of
individually stored records. -/
def storedCountOf (a : OrchArgs) : Nat :=
  let cat := categorizedOf a
  if cat.isEmpty then 0
  else if a.storeBatchOk then cat.length
  else (cat.filter a.storeOneOk).length

/-- The `errors` counter: extraction returning `null` and categorization
fallbacks contribute nothing; only a failed batch store (one error) plus
each failed individual store are counted. -/
def errorsOf (a : OrchArgs) : Nat :=
  let cat := categorizedOf a
  if cat.isEmpty ∨ a.storeBatchOk then 0
  else 1 + (cat.filter (fun r => ¬ a.storeOneOk r)).length

/-- Model of `processEmailsFromSender`: delete the prior window (counting
the removals; a failed delete is caught and counted as zero), extract,
categorize, store, and return the new database state with the summary. -/
def processEmailsFromSender (a : OrchArgs) (db : List StoredRec) :
    List StoredRec × ImportSummary :=
  let (deleted, db₁) :=
    if a.deleteOk then deleteExistingTransactions a.winStart a.winEnd db
    else (0, db)
  let cat := categorizedOf a
  (db₁ ++ insertedOf a,
   ⟨a.messages.length, storedCountOf a, deleted, errorsOf a, cat⟩)

end Orchestrator

/-- The `Date`-parser instance that recognises no string (every `new Date`
call on a string yields an invalid date). -/
def dpNone : Str → Option Int := fun _ => none

/-- Spec-side definition for the date-resolution contract (modelled from
the spec wording, to be compared with the extractor's behaviour): the body
date if it parses to a valid timestamp, else the transport header date if
valid, else the current processing time. -/
def resolveDate (dp : Str → Option Int) (now : Int)
    (bodyDate : Option Str) (hdrDate : Str) : Int :=
  let headerFallback :=
    match dp hdrDate with
    | some t => t
    | none => now
  match bodyDate with
  | some d =>
    match dp d with
    | some t => t
    | none => headerFallback
  | none => headerFallback

/-- The amount the extractor derives from the `Monto:` field of a body,
when that field is present and splits into at least two tokens: the
`parseFloat` of the second token (the first is the currency). -/
def montoAmountOf (text : Str) : Option JsNum :=
  match (EmailExtract.fieldCapture "Monto:".toList text).map
    (fun s => JsStr.splitSp (JsStr.removeFirstChar ',' (JsStr.trim s))) with
  | some monto =>
    if monto.length < 2 then none
    else some (JsNum.jsParseFloat ((monto.drop 1).headD []))
  | none => none

/-- Well-formed notification body: merchant `Uber`, amount `USD 12.50`, no
date field. -/
def bodyUber : Str :=
  ("<p>Comercio:</p></td><td><p>Uber</p>" ++
   "<p>Monto:</p></td><td><p>USD 12.50</p>").toList

/-- Body whose amount is `0`. -/
def bodyZeroAmount : Str :=
  ("<p>Comercio:</p></td><td><p>X</p>" ++
   "<p>Monto:</p></td><td><p>USD 0</p>").toList

/-- Body whose amount is negative. -/
def bodyNegAmount : Str :=
  ("<p>Comercio:</p></td><td><p>X</p>" ++
   "<p>Monto:</p></td><td><p>USD -5.00</p>").toList

/-- Body whose amount token is the literal `Infinity`, which `parseFloat`
maps to a positive non-finite number. -/
def bodyInfinity : Str :=
  ("<p>Comercio:</p></td><td><p>X</p>" ++
   "<p>Monto:</p></td><td><p>USD Infinity</p>").toList

/-- The expense extracted from `bodyUber` with clock 7 (the body has no
date field and the header is empty, so the clock wins). -/
def sampleExpense : ParsedExpense :=
  ⟨.fin ⟨1250, 100⟩, "Uber".toList, 7, some "Other".toList,
   some "Costa Rica".toList, some "USD".toList⟩

/-- Syntactically unrecoverable parser input: control bytes and bare text,
with no bracket structure to extract. -/
def garbageSample : Str :=
  "\x01\x02##garbage##".toList

/-- Recorded malformed class: array truncated in the middle of its second
element. -/
def truncatedArraySample : Str :=
  "[\x7b\"category\": \"Groceries\"\x7d, \x7b\"category\":".toList

/-- Recorded malformed class: model-side re-escaped quotes. -/
def escapedQuotesSample : Str :=
  "[\x7b\\\"category\\\": \\\"Groceries\\\"\x7d]".toList

/-- Recorded malformed class: trailing comma before the closing bracket. -/
def trailingCommaSample : Str :=
  "[\x7b\"category\": \"Groceries\"\x7d,]".toList

/-- Recorded malformed class: bareword (unquoted) object keys. -/
def barewordKeysSample : Str :=
  "[\x7bcategory: \"Groceries\"\x7d]".toList

/-- Parsed value shared by the three repairable samples. -/
def groceriesArrayValue : Json :=
  .arr [.obj [("category".toList, .str "Groceries".toList)]]

/-- Categorization response that is valid JSON but an object, not an array,
and whose category text is outside the closed set. -/
def fooBarResponse : Str :=
  "\x7b\"category\": \"FooBar\"\x7d".toList

/-- Categorization response that parses to the empty array. -/
def emptyArrayResponse : Str :=
  "[]".toList

/-- Categorization response: a one-element array with an in-set category. -/
def groceriesArrayResponse : Str :=
  "[\x7b\"category\": \"Groceries\"\x7d]".toList

/-- Twenty-five identical categorization requests. -/
def es25 : List ParsedExpense := List.replicate 25 sampleExpense

/-- External call that always succeeds with the empty-array response. -/
def okEmptyCall : List ParsedExpense → Except Unit Str := fun _ => .ok emptyArrayResponse

/-- External call that always fails (network error / all retries
exhausted). -/
def constErrCall : List ParsedExpense → Except Unit Str := fun _ => .error ()

/-- Message whose body extracts the `Uber` expense; its `Date` header is
empty (invalid). -/
def msgUber : EmailExtract.GmailMessage :=
  ⟨"m1".toList, [⟨"Date".toList, []⟩], none, some bodyUber⟩

/-- Message whose body matches no field pattern (extraction returns
null). -/
def msgMalformed : EmailExtract.GmailMessage :=
  ⟨"m2".toList, [], none, some "junk".toList⟩

/-- The end-to-end scenario of the spec: two matching messages, one valid
and one failing extraction, empty prior storage, categorization calls all
failing, batch store succeeding.  The clock (99) lies outside the deletion
window [0, 50], as when a run imports a past month. -/
def scenarioArgs : Orchestrator.OrchArgs :=
  ⟨[msgUber, msgMalformed], dpNone, 99, 0, 50, constErrCall, true, true, fun _ => true⟩

/-- Variant of the scenario whose clock (30) lies inside the deletion
window, so every stored record's date falls in the window. -/
def inWindowArgs : Orchestrator.OrchArgs :=
  ⟨[msgUber], dpNone, 30, 0, 50, constErrCall, true, true, fun _ => true⟩

/-- External call that always succeeds with the `FooBar` object response. -/
def fooBarCall : List ParsedExpense → Except Unit Str := fun _ => .ok fooBarResponse

/-- Output record the batch parser produces for `groceriesArrayResponse`. -/
def groceriesOutRec : OutRec :=
  ⟨.ofJson (.obj [("category".toList, .str "Groceries".toList)]), "Groceries".toList⟩

/-- C10: `determineCategory` is total over all merchant strings and always
returns one of exactly eight fixed labels — Groceries, Transportation,
Food & Dining, Shopping, Utilities, Healthcare, Entertainment, or Other
(the default) — all of which are members of the closed category set. -/
theorem determineCategory_closed :
    (∀ m : Str, determineCategory m ∈
      ["Groceries".toList, "Transportation".toList, "Food & Dining".toList,
       "Shopping".toList, "Utilities".toList, "Healthcare".toList,
       "Entertainment".toList, "Other".toList]) ∧
    (∀ c ∈ ["Groceries".toList, "Transportation".toList, "Food & Dining".toList,
            "Shopping".toList, "Utilities".toList, "Healthcare".toList,
            "Entertainment".toList, "Other".toList], c ∈ EXPENSE_CATEGORIES) := by
  constructor
  · intro m
    unfold determineCategory
    dsimp only
    split_ifs <;> decide
  · decide

/-- C6: `RobustJSONParser.parse` is total — every call returns a result
record carrying the success flag and both length diagnostics, with
`originalLength` always the input length — and on syntactically
unrecoverable input (binary garbage) it returns `success = false` instead
of raising. -/
theorem robustParse_never_throws :
    (∀ s : Str, (RobustJSONParser.parse s).originalLength = s.length) ∧
    (RobustJSONParser.parse garbageSample).success = false := by
  constructor
  · intro s
    simp only [RobustJSONParser.parse]
    split
    · rfl
    split
    · rfl
    split
    · split
      · rfl
      · rfl
    · rfl
  · decide

/-- C7 counterexample: on an array truncated inside its second element,
`RobustJSONParser.parse` succeeds but recovers a single object (the first
complete element), not a value with the array structure the well-formed
original would have produced. -/
theorem robustParse_truncated_array_not_array :
    (RobustJSONParser.parse truncatedArraySample).success = true ∧
    (RobustJSONParser.parse truncatedArraySample).data.map Json.isArr = some false := by
  exact ⟨rfl, rfl⟩

/-- C7 amended: for the escaped-quote, trailing-comma and bareword-key
malformed classes, `RobustJSONParser.parse` returns `success = true` and
the structure of the well-formed original; truncated arrays, however, are
not restored to arrays (see the counterexample). -/
theorem robustParse_repairs_recorded_classes :
    (RobustJSONParser.parse escapedQuotesSample).success = true ∧
    (RobustJSONParser.parse escapedQuotesSample).data = some groceriesArrayValue ∧
    (RobustJSONParser.parse trailingCommaSample).success = true ∧
    (RobustJSONParser.parse trailingCommaSample).data = some groceriesArrayValue ∧
    (RobustJSONParser.parse barewordKeysSample).success = true ∧
    (RobustJSONParser.parse barewordKeysSample).data = some groceriesArrayValue := by
  exact ⟨rfl, rfl, rfl, rfl, rfl, rfl⟩

/-- C8 counterexample: a body whose amount token is `Infinity` parses to a
positive non-finite amount, which the validation `isNaN(amount) || amount
<= 0` accepts — the extractor returns a record instead of null, contrary to
the claim that any amount that is not a finite number strictly greater than
zero is rejected. -/
theorem extraction_accepts_infinite_amount :
    montoAmountOf bodyInfinity = some (.inf true) ∧
    (EmailExtract.parseExpenseFromTextWithoutAI dpNone 0 bodyInfinity [] []).isSome = true ∧
    (EmailExtract.parseExpenseFromTextWithoutAI dpNone 0 bodyInfinity [] []).map
      (fun e => e.amount) = some (.inf true) := by
  exact ⟨rfl, rfl, rfl⟩

/-- C2 counterexample: a response that is valid JSON but not an array drops
the batch parser into regex extraction, which returns the scraped category
text verbatim — here the raw string `FooBar`, which is not a member of the
closed category set and is not coerced to any sentinel. -/
theorem batch_returns_raw_category :
    ((Categorizer.batchCategorizeExpenses fooBarCall [sampleExpense]).result.map
      OutRec.category) = ["FooBar".toList] ∧
    "FooBar".toList ∉ EXPENSE_CATEGORIES := by
  exact ⟨rfl, by decide⟩

/-- C3 counterexample: when the external response parses to the empty JSON
array, `batchCategorizeExpenses` returns the empty list for a one-element
input — the output length does not match the input length. -/
theorem batch_length_not_preserved :
    (Categorizer.batchCategorizeExpenses okEmptyCall [sampleExpense]).result.length = 0 ∧
    (Categorizer.batchCategorizeExpenses okEmptyCall [sampleExpense]).result.length ≠
      [sampleExpense].length := by
  exact ⟨rfl, by decide⟩

/-- C3 amended: when every categorization call fails, `categorizeMany`
returns one category per input record with no thrown error — but the
category is the `Unknown` sentinel for every record (the orchestrator's
keyword fallback is unreachable, because `batchCategorizeExpenses` catches
its own failures). -/
theorem batch_allFail_unknown :
    ∀ (expenses : List ParsedExpense) (call : List ParsedExpense → Except Unit Str),
      (∀ c, call c = .error ()) →
      (Categorizer.batchCategorizeExpenses call expenses).result =
        expenses.map Categorizer.setUnknown ∧
      (Categorizer.batchCategorizeExpenses call expenses).result.length =
        expenses.length := by
  intro es call h
  have key : (Categorizer.batchCategorizeExpenses call es).result =
      es.map Categorizer.setUnknown := by
    unfold Categorizer.batchCategorizeExpenses
    split
    · next hlen =>
      simp only [Categorizer.chunkGo]
      rw [if_neg (by omega), h (es.take 10)]
    · rw [h es]
  exact ⟨key, by rw [key, List.length_map]⟩

/-- Witness for the C3 amended theorem at a concrete input. -/
theorem batch_allFail_unknown_witness :
    (Categorizer.batchCategorizeExpenses constErrCall [sampleExpense]).result =
      [sampleExpense].map Categorizer.setUnknown ∧
    (Categorizer.batchCategorizeExpenses constErrCall [sampleExpense]).result.length =
      [sampleExpense].length :=
  batch_allFail_unknown [sampleExpense] constErrCall (fun _ => rfl)

/-- C2 amended: on the parsed-array path — when the response text parses to
a JSON array — every category returned by `parseBatchResponse` is a member
of the closed set or the `Unknown` sentinel (itself outside the 15-label
set), never the raw out-of-set string; on the regex-fallback path, raw
strings do escape (see the counterexample). -/
theorem parseBatch_array_path_closed :
    ∀ (response : Str) (es : List ParsedExpense) (items : List Json),
      parseJSONWithRetry response 3 = some (Json.arr items) →
      ∀ r ∈ Categorizer.parseBatchResponse response es,
        r.category ∈ EXPENSE_CATEGORIES ∨ r.category = "Unknown".toList := by
  intro resp es items hp r hr
  unfold Categorizer.parseBatchResponse at hr
  rw [hp] at hr
  simp only [List.mem_map] at hr
  obtain ⟨item, -, rfl⟩ := hr
  unfold Categorizer.elementCategory
  split
  · next s _ =>
    split
    · right; rfl
    · split
      · next hc => exact Or.inl (List.mem_of_elem_eq_true hc)
      · right; rfl
  · right; rfl

/-- Witness for the C2 amended theorem at a concrete input. -/
theorem parseBatch_array_path_closed_witness :
    groceriesOutRec.category ∈ EXPENSE_CATEGORIES ∨
      groceriesOutRec.category = "Unknown".toList :=
  parseBatch_array_path_closed groceriesArrayResponse [sampleExpense]
    [.obj [("category".toList, .str "Groceries".toList)]] rfl
    groceriesOutRec (List.mem_cons_self _ _)

/-- C9: for every extracted record, the transaction timestamp follows the
strict priority chain — the body date if it parses to a valid timestamp,
otherwise the transport header date if valid, otherwise the current
processing time (the hypothesis records that the empty string is never a
valid date, as with the JavaScript `Date` constructor). -/
theorem extraction_date_priority :
    ∀ (dp : Str → Option Int) (now : Int) (text fromAddr hdrDate : Str) (e : ParsedExpense),
      dp [] = none →
      EmailExtract.parseExpenseFromTextWithoutAI dp now text fromAddr hdrDate = some e →
      e.date = resolveDate dp now
        ((EmailExtract.fieldCapture "Fecha:".toList text).map JsStr.trim) hdrDate := by
  intro dp now text fa hd e h0 hp
  simp only [EmailExtract.parseExpenseFromTextWithoutAI] at hp
  split at hp
  · exact Option.noConfusion hp
  · exact Option.noConfusion hp
  · next com monto _ _ =>
    split at hp
    · exact Option.noConfusion hp
    · split at hp
      · exact Option.noConfusion hp
      · injection hp with hp
        subst hp
        simp only [resolveDate]
        cases hdm : EmailExtract.fieldCapture "Fecha:".toList text with
        | none => simp only [hdm, Option.map_none']
        | some d =>
          simp only [hdm, Option.map_some']
          by_cases hde : (JsStr.trim d).isEmpty
          · rw [if_pos hde]
            rw [List.isEmpty_iff.mp hde, h0]
          · rw [if_neg hde]

/-- Witness for the C9 theorem at a concrete input. -/
theorem extraction_date_priority_witness :
    sampleExpense.date = resolveDate dpNone 7
      ((EmailExtract.fieldCapture "Fecha:".toList bodyUber).map JsStr.trim) [] :=
  extraction_date_priority dpNone 7 bodyUber [] [] sampleExpense rfl rfl

/-- C8 amended: field extraction returns null (never throws) whenever the
merchant field is missing, and whenever the amount token parses to NaN or
to a value less than or equal to zero — in particular for amount `0` and
for negative amounts.  A positive non-finite parse (`Infinity`) is the one
exception to the claim's finiteness wording (see the counterexample). -/
theorem extraction_null_on_invalid :
    (∀ (dp : Str → Option Int) (now : Int) (text fromAddr hdrDate : Str),
       EmailExtract.fieldCapture "Comercio:".toList text = none →
       EmailExtract.parseExpenseFromTextWithoutAI dp now text fromAddr hdrDate = none) ∧
    (∀ (dp : Str → Option Int) (now : Int) (text fromAddr hdrDate : Str) (a : JsNum),
       montoAmountOf text = some a →
       (a.isNaN || a.leZero) = true →
       EmailExtract.parseExpenseFromTextWithoutAI dp now text fromAddr hdrDate = none) := by
  constructor
  · intro dp now text fa hd hc
    simp only [EmailExtract.parseExpenseFromTextWithoutAI, hc, Option.map_none']
  · intro dp now text fa hd a hm hbad
    unfold montoAmountOf at hm
    cases hcap : EmailExtract.fieldCapture "Monto:".toList text with
    | none => rw [hcap] at hm; exact Option.noConfusion hm
    | some s =>
      rw [hcap] at hm
      simp only [Option.map_some'] at hm
      by_cases h2 : (JsStr.splitSp (JsStr.removeFirstChar ',' (JsStr.trim s))).length < 2
      · rw [if_pos h2] at hm; exact Option.noConfusion hm
      · rw [if_neg h2] at hm
        injection hm with hm
        simp only [EmailExtract.parseExpenseFromTextWithoutAI, hcap, Option.map_some']
        cases hcom : EmailExtract.fieldCapture "Comercio:".toList text with
        | none => rfl
        | some com =>
          simp only [Option.map_some']
          by_cases hcond : (JsStr.trim com).isEmpty ∨
              (JsStr.splitSp (JsStr.removeFirstChar ',' (JsStr.trim s))).length < 2
          · rw [if_pos hcond]
          · rw [if_neg hcond, hm, if_pos hbad]

/-- Witness for the C8 amended theorem at concrete inputs: a body with no
merchant field, and a body whose amount is `0`. -/
theorem extraction_null_on_invalid_witness :
    EmailExtract.parseExpenseFromTextWithoutAI dpNone 0 "junk".toList [] [] = none ∧
    EmailExtract.parseExpenseFromTextWithoutAI dpNone 0 bodyZeroAmount [] [] = none :=
  ⟨extraction_null_on_invalid.1 dpNone 0 "junk".toList [] [] rfl,
   extraction_null_on_invalid.2 dpNone 0 bodyZeroAmount [] [] (.fin ⟨0, 1⟩) rfl rfl⟩

/-- Helper: one successful iteration of the categorization chunk loop. -/
theorem chunkGo_step (call : List ParsedExpense → Except Unit Str)
    (all : List ParsedExpense) (f : Nat) (rem : List ParsedExpense)
    (accR : List OutRec) (accC : List (List ParsedExpense))
    (hne : ¬ rem.length = 0) (resp : Str) (hok : call (rem.take 10) = .ok resp) :
    Categorizer.chunkGo call all (f + 1) rem accR accC =
      Categorizer.chunkGo call all f (rem.drop 10)
        (accR ++ Categorizer.parseBatchResponse resp (rem.take 10))
        (accC ++ [rem.take 10]) := by
  simp only [Categorizer.chunkGo]
  rw [if_neg hne, hok]

/-- Helper: the categorization chunk loop stops on an empty remainder. -/
theorem chunkGo_done (call : List ParsedExpense → Except Unit Str)
    (all : List ParsedExpense) (f : Nat) (rem : List ParsedExpense)
    (accR : List OutRec) (accC : List (List ParsedExpense))
    (h : rem.length = 0) :
    Categorizer.chunkGo call all f rem accR accC = ⟨accR, accC⟩ := by
  cases f with
  | zero => rfl
  | succ f' => simp only [Categorizer.chunkGo]; rw [if_pos h]

/-- Helper: every chunk the loop hands to the external call has at most 10
records. -/
theorem chunkGo_calls_le_ten (call : List ParsedExpense → Except Unit Str)
    (all : List ParsedExpense) :
    ∀ (fuel : Nat) (rem : List ParsedExpense) (accR : List OutRec)
      (accC : List (List ParsedExpense)),
      (∀ c ∈ accC, c.length ≤ 10) →
      ∀ c ∈ (Categorizer.chunkGo call all fuel rem accR accC).calls, c.length ≤ 10 := by
  intro fuel
  induction fuel with
  | zero => intro rem accR accC hacc c hc; exact hacc c hc
  | succ f ih =>
    intro rem accR accC hacc c hc
    simp only [Categorizer.chunkGo] at hc
    split at hc
    · exact hacc c hc
    · split at hc
      · simp only [List.mem_append, List.mem_singleton] at hc
        rcases hc with h' | h'
        · exact hacc c h'
        · rw [h']
          simp [List.length_take]
      · apply ih _ _ _ _ c hc
        intro c' hc'
        rcases List.mem_append.mp hc' with h' | h'
        · exact hacc c' h'
        · rw [List.mem_singleton.mp h']
          simp [List.length_take]

/-- C5: the batch categorizer splits its input into chunks of at most 10
records, processes them sequentially, and concatenates the per-chunk
results in original input order; on 25 records it issues exactly 3 chunked
external calls of sizes 10, 10, 5 in that order. -/
theorem batchCategorize_chunking :
    (∀ (call : List ParsedExpense → Except Unit Str) (es : List ParsedExpense)
       (c : List ParsedExpense),
       c ∈ (Categorizer.batchCategorizeExpenses call es).calls → c.length ≤ 10) ∧
    (∀ (es : List ParsedExpense) (call : List ParsedExpense → Except Unit Str) (r1 r2 r3 : Str),
      es.length = 25 →
      call (es.take 10) = .ok r1 →
      call ((es.drop 10).take 10) = .ok r2 →
      call (es.drop 20) = .ok r3 →
      (Categorizer.batchCategorizeExpenses call es).calls =
        [es.take 10, (es.drop 10).take 10, es.drop 20] ∧
      ((Categorizer.batchCategorizeExpenses call es).calls.map List.length) = [10, 10, 5] ∧
      (Categorizer.batchCategorizeExpenses call es).result =
        Categorizer.parseBatchResponse r1 (es.take 10) ++
        Categorizer.parseBatchResponse r2 ((es.drop 10).take 10) ++
        Categorizer.parseBatchResponse r3 (es.drop 20)) := by
  constructor
  · intro call es c hc
    unfold Categorizer.batchCategorizeExpenses at hc
    split at hc
    · exact chunkGo_calls_le_ten call es _ es [] [] (by intro c' hc'; cases hc') c hc
    · next hlen =>
      split at hc <;>
      · rw [List.mem_singleton.mp hc]
        omega
  · intro es call r1 r2 r3 h25 h1 h2 h3
    have hgt : es.length > 10 := by omega
    have hd10 : (es.drop 10).length = 15 := by rw [List.length_drop, h25]
    have hd20 : ((es.drop 10).drop 10).length = 5 := by rw [List.length_drop, hd10]
    have hdd : (es.drop 10).drop 10 = es.drop 20 := by
      rw [List.drop_drop]
    have ht3 : ((es.drop 10).drop 10).take 10 = es.drop 20 := by
      rw [hdd]
      exact List.take_of_length_le (by rw [List.length_drop, h25]; omega)
    have hd30 : (((es.drop 10).drop 10).drop 10).length = 0 := by
      rw [List.length_drop, hd20]
    have run_eq : Categorizer.batchCategorizeExpenses call es =
        ⟨Categorizer.parseBatchResponse r1 (es.take 10) ++
         Categorizer.parseBatchResponse r2 ((es.drop 10).take 10) ++
         Categorizer.parseBatchResponse r3 (es.drop 20),
         [es.take 10, (es.drop 10).take 10, es.drop 20]⟩ := by
      unfold Categorizer.batchCategorizeExpenses
      rw [if_pos hgt]
      rw [chunkGo_step call es es.length es [] [] (by omega) r1 h1]
      rw [h25]
      rw [show (25 : Nat) = 24 + 1 from rfl]
      rw [chunkGo_step call es 24 (es.drop 10) _ _ (by rw [hd10]; omega) r2 h2]
      rw [show (24 : Nat) = 23 + 1 from rfl]
      rw [chunkGo_step call es 23 ((es.drop 10).drop 10) _ _ (by rw [hd20]; omega) r3
        (by rw [ht3]; exact h3)]
      rw [chunkGo_done call es 23 _ _ _ hd30]
      simp only [List.nil_append, List.append_assoc, ht3]
      rfl
    refine ⟨by rw [run_eq],
            by rw [run_eq]; simp [List.length_take, List.length_drop, h25],
            by rw [run_eq]⟩

/-- Witness for the C5 theorem at a concrete input: 25 records, every call
answering with the empty-array response. -/
theorem batchCategorize_chunking_witness :
    ((Categorizer.batchCategorizeExpenses okEmptyCall es25).calls =
      [es25.take 10, (es25.drop 10).take 10, es25.drop 20] ∧
    ((Categorizer.batchCategorizeExpenses okEmptyCall es25).calls.map List.length) =
      [10, 10, 5] ∧
    (Categorizer.batchCategorizeExpenses okEmptyCall es25).result =
      Categorizer.parseBatchResponse emptyArrayResponse (es25.take 10) ++
      Categorizer.parseBatchResponse emptyArrayResponse ((es25.drop 10).take 10) ++
      Categorizer.parseBatchResponse emptyArrayResponse (es25.drop 20)) ∧
    (es25.take 10).length ≤ 10 :=
  ⟨batchCategorize_chunking.2 es25 okEmptyCall
     emptyArrayResponse emptyArrayResponse emptyArrayResponse rfl rfl rfl rfl,
   batchCategorize_chunking.1 okEmptyCall es25 (es25.take 10)
     (by rw [(batchCategorize_chunking.2 es25 okEmptyCall
          emptyArrayResponse emptyArrayResponse emptyArrayResponse rfl rfl rfl rfl).1]
         exact List.mem_cons_self _ _)⟩

/-- C4 counterexample: in the spec's end-to-end scenario (two matching
messages, one valid and one failing extraction, empty prior storage), the
summary's `errors` field is 0, not 1 — an extraction that returns null is
skipped silently and never counted. -/
theorem import_scenario_errors_zero :
    (Orchestrator.processEmailsFromSender scenarioArgs []).2.errors = 0 ∧
    (Orchestrator.processEmailsFromSender scenarioArgs []).2.errors ≠ 1 := by
  exact ⟨rfl, by decide⟩

/-- C4 amended: the summary returned is `{processed, stored, deleted,
errors, transactions}` (no `extracted`/`categorized` fields); `processed`
always equals the number of messages examined, and the spec's scenario
yields `{processed: 2, stored: 1, deleted: 0, errors: 0}` — errors counts
only thrown storage failures, not extraction nulls. -/
theorem import_summary_amended :
    (∀ (a : Orchestrator.OrchArgs) (db : List StoredRec),
       (Orchestrator.processEmailsFromSender a db).2.processed = a.messages.length) ∧
    (Orchestrator.processEmailsFromSender scenarioArgs []).2.processed = 2 ∧
    (Orchestrator.processEmailsFromSender scenarioArgs []).2.stored = 1 ∧
    (Orchestrator.processEmailsFromSender scenarioArgs []).2.deleted = 0 ∧
    (Orchestrator.processEmailsFromSender scenarioArgs []).2.errors = 0 := by
  refine ⟨?_, rfl, rfl, rfl, rfl⟩
  intro a db
  unfold Orchestrator.processEmailsFromSender
  split
  all_goals rfl

/-- C1 counterexample: with a stored record whose transaction date (the
processing-time fallback, 99) lies outside the deletion window [0, 50],
running the orchestrator twice with identical inputs stores 2 records where
one run stores 1 — the delete pre-step does not remove the prior record, so
repeated imports accumulate duplicates. -/
theorem import_rerun_duplicates_out_of_window :
    (Orchestrator.processEmailsFromSender scenarioArgs []).1.length = 1 ∧
    (Orchestrator.processEmailsFromSender scenarioArgs
      (Orchestrator.processEmailsFromSender scenarioArgs []).1).1.length = 2 := by
  exact ⟨rfl, rfl⟩

/-- Helper: the database state left by one run with a working delete. -/
theorem run_state_eq (a : Orchestrator.OrchArgs) (db : List StoredRec)
    (hdel : a.deleteOk = true) :
    (Orchestrator.processEmailsFromSender a db).1 =
      db.filter (fun r => !Orchestrator.inWindow a.winStart a.winEnd r) ++
        Orchestrator.insertedOf a := by
  unfold Orchestrator.processEmailsFromSender Orchestrator.deleteExistingTransactions
  rw [hdel]
  simp

/-- C1 amended: the delete pre-step removes all of the user's stored
records in the date window (regardless of sender); provided the delete
succeeds and every record the run inserts carries a transaction date inside
that window, running the orchestrator twice with identical inputs leaves
exactly the state of one run — no duplication. -/
theorem import_idempotent_when_dates_in_window :
    ∀ (a : Orchestrator.OrchArgs) (db : List StoredRec),
      a.deleteOk = true →
      (∀ r ∈ Orchestrator.insertedOf a,
        Orchestrator.inWindow a.winStart a.winEnd r = true) →
      (Orchestrator.processEmailsFromSender a
        (Orchestrator.processEmailsFromSender a db).1).1 =
      (Orchestrator.processEmailsFromSender a db).1 := by
  intro a db hdel hins
  rw [run_state_eq a _ hdel, run_state_eq a db hdel, List.filter_append]
  have hII : (Orchestrator.insertedOf a).filter
      (fun r => !Orchestrator.inWindow a.winStart a.winEnd r) = [] :=
    List.filter_eq_nil_iff.mpr (fun r hr => by rw [hins r hr]; simp)
  have hdb : (db.filter (fun r => !Orchestrator.inWindow a.winStart a.winEnd r)).filter
      (fun r => !Orchestrator.inWindow a.winStart a.winEnd r) =
      db.filter (fun r => !Orchestrator.inWindow a.winStart a.winEnd r) := by
    rw [List.filter_filter]
    exact List.filter_congr (fun x _ => Bool.and_self _)
  rw [hII, hdb, List.append_nil]

/-- Witness for the C1 amended theorem at a concrete input whose stored
record's date (30) lies inside the window [0, 50]. -/
theorem import_idempotent_when_dates_in_window_witness :
    (Orchestrator.processEmailsFromSender inWindowArgs
      (Orchestrator.processEmailsFromSender inWindowArgs []).1).1 =
    (Orchestrator.processEmailsFromSender inWindowArgs []).1 :=
  import_idempotent_when_dates_in_window inWindowArgs [] rfl (by decide)

/-- Witness for the C10 theorem at concrete inputs. -/
theorem determineCategory_closed_witness :
    determineCategory "SHELL GAS STATION".toList ∈
      ["Groceries".toList, "Transportation".toList, "Food & Dining".toList,
       "Shopping".toList, "Utilities".toList, "Healthcare".toList,
       "Entertainment".toList, "Other".toList] ∧
    "Transportation".toList ∈ EXPENSE_CATEGORIES :=
  ⟨determineCategory_closed.1 "SHELL GAS STATION".toList,
   determineCategory_closed.2 "Transportation".toList (by decide)⟩
